import Mathlib

/-!
Verification development for the iMessage transcript server
(`src/imessage-query-server.py`).

The Python source is shallowly embedded: byte strings become `List Nat`
(each entry < 256 at honest call sites), Python `str` becomes `String`,
`None`-able values become `Option`, and every Python exception that the
source catches is modelled by an `Option`/`Except` result.  External
collaborators (the `plistlib` parser, the `phonenumbers` library, the
filesystem and the ImageMagick converter) are passed in as explicit
function parameters: the claims under study are about the repository's
own logic, which is translated line by line from the source.
-/

/-! ## Generic list utilities modelling Python `bytes` operations -/

/-- Boolean test that `pat` is a prefix of `l` (Python `startswith`). -/
def isPref [DecidableEq α] : List α → List α → Bool
  | [], _ => true
  | _ :: _, [] => false
  | a :: as, b :: bs => decide (a = b) && isPref as bs

/-- Index of the first occurrence of the contiguous pattern `pat` inside `l`
(Python `bytes.find`), `none` when there is no occurrence. -/
def findSub [DecidableEq α] : List α → List α → Option Nat
  | [], pat => if isPref pat [] then some 0 else none
  | a :: t, pat =>
    if isPref pat (a :: t) then some 0
    else (findSub t pat).map (· + 1)

/-- `l.split(pat)[0]`: the segment of `l` before the first occurrence of
`pat`, or all of `l` when `pat` does not occur. -/
def pySplitBefore [DecidableEq α] (l pat : List α) : List α :=
  match findSub l pat with
  | none => l
  | some i => l.take i

/-- `l.split(pat)[1]`: the segment between the first occurrence of `pat` and
the next (non-overlapping) occurrence; `none` models the `IndexError`
raised when `pat` does not occur at all. -/
def pySplitSecond [DecidableEq α] (l pat : List α) : Option (List α) :=
  (findSub l pat).map (fun i => pySplitBefore (l.drop (i + pat.length)) pat)

/-- ASCII bytes of a string literal, used for the source's `b'NSString'`
style byte markers. -/
def bytesOfAscii (s : String) : List Nat := s.data.map (fun c => c.toNat)

/-! ## Lossy UTF-8 decoding, modelling `bytes.decode('utf-8', errors='replace')`

CPython replaces every maximal ill-formed subsequence with one U+FFFD
replacement character; the decoder below follows that rule. -/

/-- The U+FFFD replacement character. -/
def replChar : Char := Char.ofNat 0xFFFD

/-- A byte is a UTF-8 continuation byte. -/
def utf8Cont (b : Nat) : Bool := decide (0x80 ≤ b) && decide (b < 0xC0)

/-- Valid second byte for a three-byte sequence with the given lead. -/
def utf8Snd3 (lead b2 : Nat) : Bool :=
  if lead = 0xE0 then decide (0xA0 ≤ b2) && decide (b2 < 0xC0)
  else if lead = 0xED then decide (0x80 ≤ b2) && decide (b2 < 0xA0)
  else utf8Cont b2

/-- Valid second byte for a four-byte sequence with the given lead. -/
def utf8Snd4 (lead b2 : Nat) : Bool :=
  if lead = 0xF0 then decide (0x90 ≤ b2) && decide (b2 < 0xC0)
  else if lead = 0xF4 then decide (0x80 ≤ b2) && decide (b2 < 0x90)
  else utf8Cont b2

/-- Fuel-indexed lossy UTF-8 decoding; every step consumes at least one
byte, so any fuel at least the list length is sufficient and the `0`
fallback is unreachable from `utf8DecodeReplace`. -/
def utf8DecodeAux : Nat → List Nat → List Char
  | _, [] => []
  | 0, _ :: _ => []
  | fuel + 1, b :: rest =>
    if b < 0x80 then Char.ofNat b :: utf8DecodeAux fuel rest
    else if b < 0xC2 then replChar :: utf8DecodeAux fuel rest
    else if b < 0xE0 then
      match rest with
      | [] => [replChar]
      | b2 :: r2 =>
        if utf8Cont b2 then
          Char.ofNat ((b - 0xC0) * 64 + (b2 - 0x80)) :: utf8DecodeAux fuel r2
        else replChar :: utf8DecodeAux fuel (b2 :: r2)
    else if b < 0xF0 then
      match rest with
      | [] => [replChar]
      | b2 :: r2 =>
        if utf8Snd3 b b2 then
          match r2 with
          | [] => [replChar]
          | b3 :: r3 =>
            if utf8Cont b3 then
              Char.ofNat ((b - 0xE0) * 4096 + (b2 - 0x80) * 64 + (b3 - 0x80)) ::
                utf8DecodeAux fuel r3
            else replChar :: utf8DecodeAux fuel (b3 :: r3)
        else replChar :: utf8DecodeAux fuel (b2 :: r2)
    else if b < 0xF5 then
      match rest with
      | [] => [replChar]
      | b2 :: r2 =>
        if utf8Snd4 b b2 then
          match r2 with
          | [] => [replChar]
          | b3 :: r3 =>
            if utf8Cont b3 then
              match r3 with
              | [] => [replChar]
              | b4 :: r4 =>
                if utf8Cont b4 then
                  Char.ofNat ((b - 0xF0) * 262144 + (b2 - 0x80) * 4096 +
                      (b3 - 0x80) * 64 + (b4 - 0x80)) :: utf8DecodeAux fuel r4
                else replChar :: utf8DecodeAux fuel (b4 :: r4)
            else replChar :: utf8DecodeAux fuel (b3 :: r3)
        else replChar :: utf8DecodeAux fuel (b2 :: r2)
    else replChar :: utf8DecodeAux fuel rest

/-- Lossy UTF-8 decoding of a byte list to characters, one U+FFFD per
maximal ill-formed subsequence (CPython's `errors='replace'`). -/
def utf8DecodeReplace (l : List Nat) : List Char := utf8DecodeAux l.length l

/-! ## The rich-text decoder (`extract_message_text`, lines 52-72)

The source's `try` block over `attributed_body`:

    text_data = attributed_body.split(b'NSNumber')[0]
    text_data = text_data.split(b'NSString')[1]
    text_data = text_data.split(b'NSDictionary')[0]
    text_data = text_data[6:-12]
    if b'\x01' in text_data: text_data = text_data.split(b'\x01')[1]
    if b'\x02' in text_data: text_data = text_data.split(b'\x02')[1]
    if b'\x00' in text_data: text_data = text_data.split(b'\x00')[1]
    if b'\x86' in text_data: text_data = text_data.split(b'\x86')[0]
    return text_data.decode('utf-8', errors='replace')

`none` models the one exception the block can raise (the `IndexError` of
`split(b'NSString')[1]`), which the source catches. -/

def nsNumberB : List Nat := bytesOfAscii "NSNumber"

def nsStringB : List Nat := bytesOfAscii "NSString"

def nsDictionaryB : List Nat := bytesOfAscii "NSDictionary"

/-- `text_data.split(bytes([b]))[1]`, used under an `in` guard. -/
def splitSecondByte (l : List Nat) (b : Nat) : List Nat :=
  (pySplitSecond l [b]).getD l

/-- The source's rich-text extraction heuristic over `attributed_body`;
`none` models the caught exception (marker `NSString` absent). -/
def decode_attributed_body (ab : List Nat) : Option String :=
  let t0 := pySplitBefore ab nsNumberB
  match pySplitSecond t0 nsStringB with
  | none => none
  | some t1 =>
    let t2 := pySplitBefore t1 nsDictionaryB
    let t3 := (t2.drop 6).take (t2.length - 18)
    let u1 := if t3.contains 1 then splitSecondByte t3 1 else t3
    let u2 := if u1.contains 2 then splitSecondByte u1 2 else u1
    let u3 := if u2.contains 0 then splitSecondByte u2 0 else u2
    let u4 := if u3.contains 134 then pySplitBefore u3 [134] else u3
    some (String.mk (utf8DecodeReplace u4))

/-! ## Property-list values and the edit-history branch (lines 74-88)

`plistlib.loads` is an external stdlib collaborator: it is passed in as a
function `List Nat → Option PlistValue`, with `none` modelling a parse
exception.  The navigation `plist['ec']['0'][-1]['t']` and every dynamic
typing error it can raise are translated below; all such errors are caught
by the source's `except` and collapse to "no text". -/

inductive PlistValue where
  | dict : List (String × PlistValue) → PlistValue
  | array : List PlistValue → PlistValue
  | data : List Nat → PlistValue
  | str : String → PlistValue
  | int : Int → PlistValue
  | bool : Bool → PlistValue

/-- Lookup in a property-list dictionary (Python `dict` with `str` keys). -/
def plookup : List (String × PlistValue) → String → Option PlistValue
  | [], _ => none
  | (k, v) :: t, key => if k = key then some v else plookup t key

/-- Python truthiness of a property-list value. -/
def pvTruthy : PlistValue → Bool
  | .dict d => !d.isEmpty
  | .array l => !l.isEmpty
  | .data b => !b.isEmpty
  | .str s => !s.data.isEmpty
  | .int n => !(n == 0)
  | .bool b => b

/-- Python truthiness of the optional `text` column. -/
def pyStrTruthy : Option String → Bool
  | none => false
  | some s => !s.data.isEmpty

/-- The `try` block of `extract_message_text` applied to a dynamic value:
only `bytes` support the `.split(b'...')` calls, so any non-`data` payload
raises inside the `try` and is caught, yielding `None`. -/
def tryDecodeAB : PlistValue → Option String
  | .data b => decode_attributed_body b
  | _ => none

/-- The recursive call `extract_message_text(None, edit_text, None)` of
line 84, specialised to its arguments: `text` and `message_summary_info`
are `None`, so only the `attributed_body` branch can run. -/
def resolvePayload (payload : PlistValue) : Option String :=
  if pvTruthy payload then tryDecodeAB payload else none

/-- The `message_summary_info` branch of `extract_message_text`
(lines 74-87): parse as a plist, then `plist['ec']['0'][-1]['t']` and the
recursive rich-text decode; every exception or failed membership test
degrades to `none`. -/
def editSummaryDecode (parsePlist : List Nat → Option PlistValue)
    (msi : List Nat) : Option String :=
  match parsePlist msi with
  | none => none
  | some (.dict d) =>
    match plookup d "ec" with
    | some (.dict d2) =>
      match plookup d2 "0" with
      | some (.array l) =>
        match l.getLast? with
        | some (.dict d3) =>
          match plookup d3 "t" with
          | some payload => resolvePayload payload
          | none => none
        | _ => none
      | _ => none
    | _ => none
  | some _ => none

/-- `extract_message_text` (lines 47-88).  The `attributed_body` argument
is a dynamic value (the SQL column supplies `bytes`, i.e. `.data`; the
recursive call of line 84 supplies an arbitrary plist payload). -/
def extract_message_text (parsePlist : List Nat → Option PlistValue)
    (text : Option String) (attributed_body : Option PlistValue)
    (message_summary_info : Option (List Nat)) : Option String :=
  if pyStrTruthy text then text
  else
    let abRes : Option String :=
      match attributed_body with
      | some v => if pvTruthy v then tryDecodeAB v else none
      | none => none
    match abRes with
    | some s => some s
    | none =>
      match message_summary_info with
      | some msi => if !msi.isEmpty then editSummaryDecode parsePlist msi else none
      | none => none

/-- Fidelity of `resolvePayload`: it is exactly the recursive call
`extract_message_text(None, payload, None)` of line 84. -/
theorem resolvePayload_eq_recursive_call
    (parsePlist : List Nat → Option PlistValue) (payload : PlistValue) :
    extract_message_text parsePlist none (some payload) none =
      resolvePayload payload := by
  unfold extract_message_text resolvePayload
  cases h : (if pvTruthy payload then tryDecodeAB payload else none) with
  | none => simp [pyStrTruthy, h]
  | some s => simp [pyStrTruthy, h]

/-! ## Spec-side definitions for the resolution-policy claims

These two definitions follow the specification's words (not the source)
and exist only to be compared with `extract_message_text`. -/

/-- Spec-worded strict-priority resolution (spec 4.4 and claim C1): plain
text when non-empty; otherwise, when the rich-text blob is present, the
result IS the rich-text decode (no fall-through on its failure);
otherwise, when the edit-history blob is present, its decode; otherwise
no text. -/
def specStrictResolve (parsePlist : List Nat → Option PlistValue)
    (text : Option String) (attributed_body : Option PlistValue)
    (message_summary_info : Option (List Nat)) : Option String :=
  if pyStrTruthy text then text
  else
    match attributed_body with
    | some v =>
      if pvTruthy v then tryDecodeAB v
      else
        match message_summary_info with
        | some msi => if !msi.isEmpty then editSummaryDecode parsePlist msi else none
        | none => none
    | none =>
      match message_summary_info with
      | some msi => if !msi.isEmpty then editSummaryDecode parsePlist msi else none
      | none => none

/-- First defined result among a list of candidate outcomes. -/
def firstSome : List (Option String) → Option String
  | [] => none
  | none :: t => firstSome t
  | some s :: _ => some s

/-- Amended resolution policy: a chain of fallible candidates tried in
order with early return on the first that yields a value — plain text when
non-empty; then the rich-text decode attempt (used whenever it succeeds,
even with an empty decoded string); then the edit-history decode attempt;
else no text. -/
def specResolveAmended (parsePlist : List Nat → Option PlistValue)
    (text : Option String) (attributed_body : Option PlistValue)
    (message_summary_info : Option (List Nat)) : Option String :=
  firstSome
    [ if pyStrTruthy text then text else none,
      match attributed_body with
      | some v => if pvTruthy v then tryDecodeAB v else none
      | none => none,
      match message_summary_info with
      | some msi => if !msi.isEmpty then editSummaryDecode parsePlist msi else none
      | none => none ]

/-- The spec's "apply the Rich-Text Decoder (4.2) on that payload": the
decoder takes a byte sequence, so only a `data` payload can be decoded;
an absent or non-byte payload is no text. -/
def specApplyRichDecoder : Option PlistValue → Option String
  | some (.data b) => decode_attributed_body b
  | some _ => none
  | none => none

/-- Spec-worded edit-history decoder (spec 4.3 and claim C3): parse as a
property list, look up the edit-collection key `ec`, then the
conversation-thread sub-key `0`, take the last element of that sequence,
extract its text-payload field `t`, and apply the rich-text decoder to
that payload; any parse failure, missing key or malformed structure is no
text. -/
def specEditHistoryDecode (parsePlist : List Nat → Option PlistValue)
    (msi : List Nat) : Option String :=
  match parsePlist msi with
  | none => none
  | some (.dict d) =>
    match plookup d "ec" with
    | some (.dict d2) =>
      match plookup d2 "0" with
      | some (.array l) =>
        match l.getLast? with
        | some (.dict d3) => specApplyRichDecoder (plookup d3 "t")
        | _ => none
      | _ => none
    | _ => none
  | some _ => none

/-! ## Timestamp codec and date-range filter

The store's ticks are nanoseconds since 2001-01-01T00:00:00Z.  The beta
query converts them with

    datetime(m.date/1000000000 + strftime('%s','2001-01-01'),'unixepoch')

i.e. integer division to whole seconds plus the Unix epoch offset of
2001-01-01 (978307200).  Instants are modelled as Unix seconds, naive
datetimes as wall-clock seconds, and calendar dates as day numbers
(floor of seconds / 86400, which is exactly `datetime.date()` on the
linear timeline). -/

/-- Seconds between the Unix epoch and 2001-01-01T00:00:00Z
(`strftime('%s','2001-01-01')`). -/
def epoch2001 : Nat := 978307200

/-- The SQL tick-to-UTC conversion of the beta query (line 344): whole
Unix seconds. -/
def ticks_to_utc (t : Nat) : Nat := t / 1000000000 + epoch2001

/-- Calendar date (day number) of an instant given in seconds; floor
division matches `datetime.date()` for negative values as well. -/
def dayOfSec (s : Int) : Int := Int.fdiv s 86400

/-- Spec-worded `in_range` (spec 4.1 and claim C4): retained iff the start
bound is absent or the date is `>=` it, and the end bound is absent or the
date is `<=` it, both inclusive. -/
def inRangeSpec (d : Int) (dstart dend : Option Int) : Bool :=
  (match dstart with
   | none => true
   | some s => decide (s ≤ d)) &&
  (match dend with
   | none => true
   | some e => decide (d ≤ e))

/-- The per-message keep decision of `get_chat_transcript_beta`
(lines 376-390): the stored datetime string is re-parsed and tagged as
UTC (`replace(tzinfo=timezone.utc)`), so the date is the UTC date of
`msgSec`; the message is dropped when the date is `<` the start bound or
`>` the end bound. -/
def betaKeep (msgSec : Int) (dstart dend : Option Int) : Bool :=
  let msgDate := dayOfSec msgSec
  !(match dstart with
    | some s => decide (msgDate < s)
    | none => false) &&
  !(match dend with
    | some e => decide (e < msgDate)
    | none => false)

/-- The per-message keep decision of `get_chat_transcript`
(lines 192-206): the naive datetime string is interpreted in the host's
LOCAL timezone and converted to UTC (`astimezone(timezone.utc)`), so for
a fixed local offset of `localOff` seconds east of UTC the UTC instant is
`naiveSec - localOff`. -/
def transcriptKeep (localOff : Int) (naiveSec : Int)
    (dstart dend : Option Int) : Bool :=
  let msgDate := dayOfSec (naiveSec - localOff)
  !(match dstart with
    | some s => decide (msgDate < s)
    | none => false) &&
  !(match dend with
    | some e => decide (e < msgDate)
    | none => false)

/-- Date filtering of `get_chat_transcript` over the naive message
seconds; the function applies no default range (lines 192-206: filtering
happens only `if start_date` / `if end_date`). -/
def transcriptFilter (localOff : Int) (msgs : List Int)
    (dstart dend : Option Int) : List Int :=
  msgs.filter (fun m => transcriptKeep localOff m dstart dend)

/-- Default-range computation of `get_chat_transcript_beta`
(lines 368-373): only when BOTH bounds are absent, the range becomes the
date of `now - 7 days` to the date of `now`, taken once from the current
UTC instant. -/
def betaEffectiveRange (nowSec : Int) (dstart dend : Option Int) :
    Option Int × Option Int :=
  if dstart.isNone && dend.isNone then
    (some (dayOfSec (nowSec - 7 * 86400)), some (dayOfSec nowSec))
  else (dstart, dend)

/-! ## Rows, per-handle queries and the beta assembler (lines 340-390) -/

/-- A raw row of the beta SQL query (line 343-345): `m.ROWID, m.guid,
date, m.is_from_me, m.handle_id, m.text, m.attributedBody,
m.message_summary_info`, joined with the handle's identifier string
`h.id` that the query filters on. -/
structure MsgRow where
  rowid : Nat
  guid : String
  dateTicks : Nat
  is_from_me : Bool
  handle_rowid : Nat
  handle : String
  text : Option String
  attributedBody : Option (List Nat)
  summaryInfo : Option (List Nat)
deriving DecidableEq

/-- `ORDER BY m.date ASC` modelled as a stable insertion sort on the tick
column (SQL fixes only the key order; ties are left in a stable order). -/
def sortByTicks (l : List MsgRow) : List MsgRow :=
  List.insertionSort (fun a b => a.dateTicks ≤ b.dateTicks) l

/-- The beta per-handle query (lines 342-352): all rows whose joined
handle identifier equals `h`, ordered by ascending ticks. -/
def queryMessagesForHandle (rows : List MsgRow) (h : String) : List MsgRow :=
  sortByTicks (rows.filter (fun r => r.handle == h))

/-- The beta collection loop (lines 340-364): one ordered query per
matched handle, results appended in handle order. -/
def betaCollect (rows : List MsgRow) (handles : List String) : List MsgRow :=
  (handles.map (fun h => queryMessagesForHandle rows h)).flatten

/-- The beta assembler's filter stage (lines 368-390) over the collected
rows: the default range is applied first, then each row's UTC seconds
(`ticks_to_utc` of its ticks) is date-filtered. -/
def betaPipeline (nowSec : Int) (dstart dend : Option Int)
    (rows : List MsgRow) (handles : List String) : List MsgRow :=
  let r := betaEffectiveRange nowSec dstart dend
  (betaCollect rows handles).filter
    (fun m => betaKeep ((ticks_to_utc m.dateTicks : Int)) r.1 r.2)

/-! ## Paths and attachment materialization (lines 22-41, 90-120, 208-226, 412-427)

A filesystem path is a directory (component list) plus a final name.
`pathlib`'s `suffix`/`stem` act on the final name: the suffix starts at
the last dot, provided that dot is neither the first nor the last
character of the name.  `str.lower` is modelled for ASCII letters, which
covers the `'.heic'` comparison of line 108. -/

structure PPath where
  dirs : List String
  base : String
deriving DecidableEq

/-- Index of the last `'.'` in a name, scanning like `str.rfind('.')`. -/
def rfindDot : List Char → Option Nat
  | [] => none
  | c :: t =>
    match rfindDot t with
    | some i => some (i + 1)
    | none => if c = '.' then some 0 else none

/-- `PurePath.suffix` of a file name. -/
def pySuffix (name : String) : String :=
  match rfindDot name.data with
  | none => ""
  | some i =>
    if 0 < i ∧ i < name.data.length - 1 then String.mk (name.data.drop i) else ""

/-- `PurePath.stem` of a file name. -/
def pyStem (name : String) : String :=
  match rfindDot name.data with
  | none => name
  | some i =>
    if 0 < i ∧ i < name.data.length - 1 then String.mk (name.data.take i) else name

/-- ASCII `str.lower` (the only characters compared here are ASCII). -/
def strLower (s : String) : String :=
  String.mk (s.data.map (fun c => if 'A' ≤ c ∧ c ≤ 'Z' then Char.ofNat (c.toNat + 32) else c))

/-- `convert_heic_to_jpeg` (lines 22-41): re-checks existence (raising —
and itself catching — `FileNotFoundError`), then runs the external
ImageMagick converter, whose outcome is the parameter `convert`; every
failure path returns `false`. -/
def convert_heic_to_jpeg (fsExists : PPath → Bool) (convert : PPath → PPath → Bool)
    (input_heic output_jpeg : PPath) : Bool :=
  if fsExists input_heic then convert input_heic output_jpeg else false

/-- An attachment record as consulted by `get_chat_transcript`
(lines 213-218): source path, declared MIME type, missing flag. -/
structure AttachmentRef where
  original_path : PPath
  mime_type : Option String
  missing : Bool
deriving DecidableEq

/-- A materialized attachment as reported to the caller (path and
effective MIME type, lines 221-224). -/
structure ResolvedAttachment where
  path : PPath
  mime : Option String
deriving DecidableEq

/-- `copy_and_convert_attachment` (lines 90-120).  `Except.error` models
the uncaught `FileNotFoundError` of line 102 (the per-attachment caller
catches it); `Except.ok none` is a failed HEIC conversion; `Except.ok
(some p)` is the materialized destination path.  The destination
directory is created (`mkdir(parents=True, exist_ok=True)`) and the
destination name is `stem + '.jpeg'` for HEIC sources, the original name
otherwise. -/
def copy_and_convert_attachment (fsExists : PPath → Bool)
    (convert : PPath → PPath → Bool) (attachment_path : PPath)
    (destination_dir : List String) : Except String (Option PPath) :=
  if !fsExists attachment_path then
    .error "Attachment not found"
  else if strLower (pySuffix attachment_path.base) == ".heic" then
    let dest_path : PPath := ⟨destination_dir, pyStem attachment_path.base ++ ".jpeg"⟩
    if convert_heic_to_jpeg fsExists convert attachment_path dest_path then
      .ok (some dest_path)
    else .ok none
  else .ok (some ⟨destination_dir, attachment_path.base⟩)

/-- One iteration of the attachment loop of `get_chat_transcript`
(lines 212-226): skip missing attachments, catch any exception from the
copy/convert step, skip failed conversions, and otherwise report the new
path with `'image/jpeg'` replacing the declared type for HEIC sources. -/
def resolveOne (fsExists : PPath → Bool) (convert : PPath → PPath → Bool)
    (dir : List String) (att : AttachmentRef) : List ResolvedAttachment :=
  if att.missing then []
  else
    match copy_and_convert_attachment fsExists convert att.original_path dir with
    | .error _ => []
    | .ok none => []
    | .ok (some p) =>
      [⟨p, if strLower (pySuffix att.original_path.base) == ".heic" then
            some "image/jpeg" else att.mime_type⟩]

/-- The whole attachment loop: per-attachment results appended in order. -/
def resolveAttachments (fsExists : PPath → Bool) (convert : PPath → PPath → Bool)
    (dir : List String) (atts : List AttachmentRef) : List ResolvedAttachment :=
  (atts.map (fun a => resolveOne fsExists convert dir a)).flatten

/-- The fixed output directory: both tools hardcode
`Path.home() / "Downloads"` (lines 211 and 413); neither tool signature
takes an output-directory argument. -/
def downloadsDir (home : List String) : List String := home ++ ["Downloads"]

/-- File-write targets attempted while resolving one attachment: nothing
for missing or nonexistent sources; the converted `stem + '.jpeg'` target
for HEIC sources; the copied original name otherwise.  Every target is a
name directly inside `dir`. -/
def attachmentWriteTargets (fsExists : PPath → Bool) (att : AttachmentRef)
    (dir : List String) : List PPath :=
  if att.missing then []
  else if !fsExists att.original_path then []
  else if strLower (pySuffix att.original_path.base) == ".heic" then
    [⟨dir, pyStem att.original_path.base ++ ".jpeg"⟩]
  else [⟨dir, att.original_path.base⟩]

/-- All file-write targets of a transcript request's attachment handling:
both tools pass `downloadsDir home` for every message's attachments. -/
def transcriptWriteTargets (home : List String) (fsExists : PPath → Bool)
    (atts : List AttachmentRef) : List PPath :=
  (atts.map (fun a => attachmentWriteTargets fsExists a (downloadsDir home))).flatten

/-! ## Phone-number validation (lines 171-180 and 286-305)

The `phonenumbers` library is external; a call to
`phonenumbers.parse(...)` plus `is_valid_number`/`format_number` is
summarized by a `ParseOutcome`. -/

inductive ParseOutcome where
  | parseError : String → ParseOutcome
  | parsed : Bool → String → ParseOutcome

/-- A beta result object in the early-return error shape of lines 290-305
(`messages`, `total_count`, `error`; the debug payload is omitted). -/
structure BetaResult where
  messages : List MsgRow
  total_count : Nat
  error : Option String
deriving DecidableEq

/-- Validation prologue of `get_chat_transcript` (lines 171-180):
`NumberParseException` is caught and re-raised as
`ValueError(f"Invalid phone number format: {e}")`; an unsuccessfully
validated number raises `ValueError(f"Invalid phone number:
{phone_number}")`; otherwise the E.164 formatting is used. -/
def transcript_validate (po : ParseOutcome) (phone_number : String) :
    Except String String :=
  match po with
  | .parseError e => .error ("Invalid phone number format: " ++ e)
  | .parsed valid e164 =>
    if valid then .ok e164
    else .error ("Invalid phone number: " ++ phone_number)

/-- Validation prologue of `get_chat_transcript_beta` (lines 286-305):
the same two failure cases return a normal result object with empty
messages, zero count and an `error` field instead of raising. -/
def beta_validate (po : ParseOutcome) (phone_number : String) :
    Sum BetaResult String :=
  match po with
  | .parseError e =>
    .inl ⟨[], 0, some ("Invalid phone number format: " ++ e)⟩
  | .parsed valid e164 =>
    if valid then .inr e164
    else .inl ⟨[], 0, some ("Invalid phone number: " ++ phone_number)⟩

/-- Contiguous-substring test over character lists, used to express that
an error message "names" the offending number. -/
def hasSub [DecidableEq α] : List α → List α → Bool
  | l, pat =>
    if isPref pat l then true
    else
      match l with
      | [] => false
      | _ :: t => hasSub t pat

/-! ## Support lemmas -/

theorem strData_append (s t : String) : (s ++ t).data = s.data ++ t.data := by
  cases s; cases t; rfl

theorem isPref_iff [DecidableEq α] (pat l : List α) :
    isPref pat l = true ↔ ∃ t, l = pat ++ t := by
  induction pat generalizing l with
  | nil => simp [isPref]
  | cons a as ih =>
    cases l with
    | nil => simp [isPref]
    | cons b bs => simp [isPref, ih, eq_comm (a := a) (b := b)]

theorem isPref_self [DecidableEq α] (l : List α) : isPref l l = true := by
  rw [isPref_iff]; exact ⟨[], by simp⟩

theorem exists_split_cons [DecidableEq α] (x : α) (t pat : List α) :
    (∃ pre post, x :: t = pre ++ pat ++ post) ↔
      ((∃ post, x :: t = pat ++ post) ∨ ∃ pre post, t = pre ++ pat ++ post) := by
  constructor
  · rintro ⟨pre, post, hp⟩
    cases pre with
    | nil => exact Or.inl ⟨post, by simpa using hp⟩
    | cons y ys =>
      rw [List.cons_append, List.cons_append, List.cons_eq_cons] at hp
      exact Or.inr ⟨ys, post, hp.2⟩
  · rintro (⟨post, hp⟩ | ⟨pre, post, hp⟩)
    · exact ⟨[], post, by simpa using hp⟩
    · exact ⟨x :: pre, post, by simp [hp]⟩

theorem findSub_none_iff [DecidableEq α] (l pat : List α) :
    findSub l pat = none ↔ ¬ ∃ pre post, l = pre ++ pat ++ post := by
  induction l with
  | nil =>
    cases pat with
    | nil => simp [findSub, isPref]
    | cons a as =>
      simp only [findSub, isPref]
      constructor
      · rintro - ⟨pre, post, hp⟩
        exact absurd hp.symm (by simp)
      · intro _; rfl
  | cons x t ih =>
    rw [exists_split_cons]
    by_cases hp : isPref pat (x :: t) = true
    · have hex := (isPref_iff pat (x :: t)).mp hp
      simp [findSub, hp]
      intro hcon
      obtain ⟨s, hs⟩ := hex
      exact absurd hs (hcon s)
    · have hb : isPref pat (x :: t) = false := by
        cases hxx : isPref pat (x :: t) with
        | false => rfl
        | true => exact absurd hxx hp
      rw [isPref_iff] at hp
      simp only [findSub, hb, Bool.false_eq_true, if_false, Option.map_eq_none', ih]
      constructor
      · rintro h (hl | hr)
        · exact hp hl
        · exact h hr
      · intro h hr
        exact h (Or.inr hr)

theorem hasSub_self [DecidableEq α] (l : List α) : hasSub l l = true := by
  unfold hasSub
  simp [isPref_self]

theorem hasSub_append_left [DecidableEq α] (pre l pat : List α)
    (h : hasSub l pat = true) : hasSub (pre ++ l) pat = true := by
  induction pre with
  | nil => simpa using h
  | cons c cs ih =>
    unfold hasSub
    by_cases hp : isPref pat (c :: (cs ++ l)) = true
    · simp [hp]
    · simpa [hp] using ih

instance rTicksTotal : IsTotal MsgRow (fun a b : MsgRow => a.dateTicks ≤ b.dateTicks) :=
  ⟨fun a b => Nat.le_total a.dateTicks b.dateTicks⟩

instance rTicksTrans : IsTrans MsgRow (fun a b : MsgRow => a.dateTicks ≤ b.dateTicks) :=
  ⟨fun _ _ _ hab hbc => Nat.le_trans hab hbc⟩

theorem sortByTicks_pairwise (l : List MsgRow) :
    List.Pairwise (fun a b : MsgRow => a.dateTicks ≤ b.dateTicks) (sortByTicks l) :=
  List.sorted_insertionSort _ l

/-! ## Claims -/

/-- C1 counterexample: with an empty plain text, a rich-text blob that IS
present but whose decode fails (no `NSString` marker), and an edit-history
blob whose plist carries the text "hi", the code returns "hi" from the
edit-history branch, while the claimed strict priority ("if the rich-text
blob is present, its decode is used ... otherwise the edit-history blob")
yields no text. -/
theorem claim_C1_counterexample :
    extract_message_text
        (fun _ => some (.dict [("ec", .dict [("0", .array [.dict [("t",
          .data (bytesOfAscii "XNSStringAAAAAAhiBBBBBBBBBBBB"))]])])]))
        none (some (.data (bytesOfAscii "xyz"))) (some [1]) = some "hi" ∧
      specStrictResolve
        (fun _ => some (.dict [("ec", .dict [("0", .array [.dict [("t",
          .data (bytesOfAscii "XNSStringAAAAAAhiBBBBBBBBBBBB"))]])])]))
        none (some (.data (bytesOfAscii "xyz"))) (some [1]) = none := by
  decide

/-- C1 (amended): text resolution is a first-success chain, not a strict
presence-based priority — the plain-text column verbatim when non-empty;
otherwise the rich-text decode attempt whenever the blob is truthy and the
attempt succeeds (even with an empty decoded string); when that attempt
fails or the blob is absent, the edit-history decode attempt when that
blob is non-empty; otherwise no text. -/
theorem claim_C1 (parsePlist : List Nat → Option PlistValue)
    (text : Option String) (attributed_body : Option PlistValue)
    (message_summary_info : Option (List Nat)) :
    extract_message_text parsePlist text attributed_body message_summary_info =
      specResolveAmended parsePlist text attributed_body message_summary_info := by
  unfold extract_message_text specResolveAmended
  by_cases ht : pyStrTruthy text = true
  · obtain ⟨s, rfl⟩ : ∃ s, text = some s := by
      cases text with
      | none => simp [pyStrTruthy] at ht
      | some s => exact ⟨s, rfl⟩
    simp [firstSome, ht]
  · have ht' : pyStrTruthy text = false := by
      cases hxx : pyStrTruthy text with
      | false => rfl
      | true => exact absurd hxx ht
    cases hab : (match attributed_body with
      | some v => if pvTruthy v then tryDecodeAB v else none
      | none => none) with
    | some s => simp [firstSome, ht', hab]
    | none =>
      cases message_summary_info with
      | none => simp [firstSome, ht', hab]
      | some msi =>
        by_cases hnil : msi = []
        · subst hnil; simp [firstSome, ht', hab]
        · cases hm : editSummaryDecode parsePlist msi with
          | some s => simp [firstSome, ht', hab, hm, hnil]
          | none => simp [firstSome, ht', hab, hm, hnil]

/-- C2 counterexample: the rich-text decoder applies no cleanup — for the
input `b"NSString"` it returns the empty string (never permitted by the
claim), and for a payload containing the control byte 7 the decoded
string retains that control character un-stripped. -/
theorem claim_C2_counterexample :
    decode_attributed_body (bytesOfAscii "NSString") = some "" ∧
      decode_attributed_body
        (bytesOfAscii "XNSStringAAAAAAh" ++ [7] ++ bytesOfAscii "iBBBBBBBBBBBB") =
        some "h\x07i" ∧
      (Char.ofNat 7) ∈ ("h\x07i" : String).data := by
  decide

/-- C2 (amended): the rich-text decoder never raises; it returns no text
exactly when the `NSString` class marker is absent from the segment before
the first `NSNumber` marker, and otherwise returns the lossily decoded
sliced segment verbatim — possibly empty, with control characters,
replacement characters, placeholders and surrounding whitespace all
retained. -/
theorem claim_C2 (ab : List Nat) :
    decode_attributed_body ab = none ↔
      ¬ ∃ pre post, pySplitBefore ab nsNumberB = pre ++ nsStringB ++ post := by
  rw [← findSub_none_iff (pySplitBefore ab nsNumberB) nsStringB]
  unfold decode_attributed_body pySplitSecond
  cases h : findSub (pySplitBefore ab nsNumberB) nsStringB <;> simp [h]

/-- The recursive rich-text decode of a `data` payload coincides with the
rich-text decoder applied to its bytes (the empty payload is falsy in the
source, and the decoder rejects it as well). -/
theorem resolvePayload_data (b : List Nat) :
    resolvePayload (.data b) = decode_attributed_body b := by
  cases b with
  | nil => decide
  | cons x xs => rfl

/-- The source's recursive call on an extracted payload agrees with the
spec's "apply the Rich-Text Decoder to that payload". -/
theorem resolvePayload_eq_specApply (payload : PlistValue) :
    resolvePayload payload = specApplyRichDecoder (some payload) := by
  cases payload with
  | data b => exact resolvePayload_data b
  | dict d => simp [resolvePayload, tryDecodeAB, specApplyRichDecoder]
  | array l => simp [resolvePayload, tryDecodeAB, specApplyRichDecoder]
  | str s => simp [resolvePayload, tryDecodeAB, specApplyRichDecoder]
  | int n => simp [resolvePayload, tryDecodeAB, specApplyRichDecoder]
  | bool bb => simp [resolvePayload, tryDecodeAB, specApplyRichDecoder]

/-- C3: the edit-history branch equals the specified navigation — parse as
a property list, look up the edit-collection key `ec`, the thread sub-key
`0`, take the last element, extract its `t` payload, and apply the
rich-text decoder to that payload; every parse failure, missing key or
malformed structure yields no text rather than an error. -/
theorem claim_C3 (parsePlist : List Nat → Option PlistValue) (msi : List Nat) :
    editSummaryDecode parsePlist msi = specEditHistoryDecode parsePlist msi := by
  unfold editSummaryDecode specEditHistoryDecode
  repeat' split
  all_goals first
    | rfl
    | (rename_i heq
       rw [heq]
       first
         | rfl
         | exact resolvePayload_eq_specApply _)

/-- C4 counterexample: in a host timezone one hour east of UTC
(offset 3600 s), `get_chat_transcript` drops a message whose UTC calendar
date is exactly the start bound — the naive instant 0 becomes UTC
instant -3600, date -1, which is `<` the start date 0 — although the
claimed UTC-date rule retains it. -/
theorem claim_C4_counterexample :
    transcriptKeep 3600 0 (some 0) none = false ∧
      inRangeSpec (dayOfSec 0) (some 0) none = true := by
  decide

/-- C4 (amended): both filters are inclusive at both bounds and agree
with the spec's `in_range` on SOME calendar date, but only
`get_chat_transcript_beta` takes that date from the timestamp interpreted
in UTC; `get_chat_transcript` interprets the timestamp in the host's
local timezone (offset `off` seconds east) and converts, so its date is
the UTC date of `naive - off` and shifts with the host offset. -/
theorem claim_C4 (msgSec naive off d : Int) (dstart dend : Option Int) :
    betaKeep msgSec dstart dend = inRangeSpec (dayOfSec msgSec) dstart dend ∧
      transcriptKeep off naive dstart dend =
        inRangeSpec (dayOfSec (naive - off)) dstart dend ∧
      inRangeSpec d (some d) (some d) = true := by
  refine ⟨?_, ?_, by simp [inRangeSpec]⟩
  · cases dstart <;> cases dend <;>
      simp [betaKeep, inRangeSpec, ← decide_not, Int.not_lt]
  · cases dstart <;> cases dend <;>
      simp [transcriptKeep, inRangeSpec, ← decide_not, Int.not_lt]

/-- C5 counterexample: the conversion truncates ticks to whole seconds,
so the distinct ticks 0 and 1 map to the same UTC instant — strict
monotonicity fails. -/
theorem claim_C5_counterexample :
    (0 : Nat) < 1 ∧ ticks_to_utc 0 = ticks_to_utc 1 := by
  decide

/-- C5 (amended): the tick-to-UTC-instant conversion is monotone
(non-strictly): ticks within the same whole second map to the same
instant, so `<` must weaken to `≤`. -/
theorem claim_C5 (t1 t2 : Nat) (h : t1 ≤ t2) :
    ticks_to_utc t1 ≤ ticks_to_utc t2 := by
  unfold ticks_to_utc
  exact Nat.add_le_add_right (Nat.div_le_div_right h) epoch2001

/-- C5 witness: the amended monotonicity evaluated at 1 and 2000000000
ticks. -/
theorem claim_C5_witness :
    (1 : Nat) ≤ 2000000000 ∧ ticks_to_utc 1 ≤ ticks_to_utc 2000000000 :=
  ⟨by decide, claim_C5 1 2000000000 (by decide)⟩

/-- C6 counterexample: two distinct handles matching the same identifier
set, one holding a message at tick 100 and the other at tick 50; the
per-handle queries are concatenated, so the assembled list is [100, 50] —
not ascending. -/
theorem claim_C6_counterexample :
    ¬ List.Pairwise (fun a b : MsgRow => a.dateTicks ≤ b.dateTicks)
      (betaCollect
        [⟨1, "g1", 100, false, 1, "A", none, none, none⟩,
         ⟨2, "g2", 50, false, 2, "B", none, none, none⟩]
        ["A", "B"]) := by
  decide

/-- C6 (amended): ordering by ascending ticks holds per matched handle,
and end-to-end (through the date filter, which only removes elements)
when exactly ONE handle matches; with several matched handles the
assembled list is the concatenation of per-handle ascending runs and need
not be globally ascending. -/
theorem claim_C6 (rows : List MsgRow) (nowSec : Int) (dstart dend : Option Int)
    (h : String) :
    List.Pairwise (fun a b : MsgRow => a.dateTicks ≤ b.dateTicks)
        (queryMessagesForHandle rows h) ∧
      List.Pairwise (fun a b : MsgRow => a.dateTicks ≤ b.dateTicks)
        (betaCollect rows [h]) ∧
      List.Sublist (betaPipeline nowSec dstart dend rows [h])
        (betaCollect rows [h]) ∧
      List.Pairwise (fun a b : MsgRow => a.dateTicks ≤ b.dateTicks)
        (betaPipeline nowSec dstart dend rows [h]) := by
  have hq : List.Pairwise (fun a b : MsgRow => a.dateTicks ≤ b.dateTicks)
      (queryMessagesForHandle rows h) := sortByTicks_pairwise _
  have hc : betaCollect rows [h] = queryMessagesForHandle rows h := by
    simp [betaCollect]
  have hsub : List.Sublist (betaPipeline nowSec dstart dend rows [h])
      (betaCollect rows [h]) := List.filter_sublist _
  refine ⟨hq, hc ▸ hq, hsub, List.Pairwise.sublist hsub (hc ▸ hq)⟩

/-- C7 counterexample: with no caller-supplied range,
`get_chat_transcript` retains a message whose calendar date (day 0,
1970-01-01) lies far outside the claimed default window of the last 7
days before `now` (2001-01-01): no default range is applied there. -/
theorem claim_C7_counterexample :
    transcriptFilter 0 [0] none none = [0] ∧
      inRangeSpec (dayOfSec 0)
        (some (dayOfSec ((978307200 : Int) - 7 * 86400)))
        (some (dayOfSec 978307200)) = false := by
  decide

/-- C7 (amended): only `get_chat_transcript_beta` applies the default
range, and only when BOTH bounds are absent — then the range becomes the
UTC date of `now - 7 days` to the UTC date of `now`, computed once from
the current instant; with either bound supplied the range is used as
given, and `get_chat_transcript` applies no default at all: with no range
it retains every message. -/
theorem claim_C7 (nowSec a b : Int) (dstart dend : Option Int) (off : Int)
    (msgs : List Int) :
    betaEffectiveRange nowSec none none =
        (some (dayOfSec (nowSec - 7 * 86400)), some (dayOfSec nowSec)) ∧
      betaEffectiveRange nowSec (some a) dend = (some a, dend) ∧
      betaEffectiveRange nowSec dstart (some b) = (dstart, some b) ∧
      transcriptFilter off msgs none none = msgs := by
  refine ⟨by simp [betaEffectiveRange], by simp [betaEffectiveRange], ?_, ?_⟩
  · cases dstart <;> simp [betaEffectiveRange]
  · simp [transcriptFilter, transcriptKeep]

/-- C8: for an existing, non-missing attachment whose name has the
`.heic` suffix (case-insensitively), the resolver materializes exactly
`stem + '.jpeg'` inside the destination directory with media type
`image/jpeg` when the converter succeeds, and omits the attachment
entirely when it fails; either way the surrounding loop processes the
remaining attachments unchanged. -/
theorem claim_C8 (fsE : PPath → Bool) (conv : PPath → PPath → Bool)
    (dir : List String) (att : AttachmentRef)
    (hheic : strLower (pySuffix att.original_path.base) = ".heic")
    (hmiss : att.missing = false)
    (hex : fsE att.original_path = true) :
    resolveOne fsE conv dir att =
        (if conv att.original_path ⟨dir, pyStem att.original_path.base ++ ".jpeg"⟩ then
          [⟨⟨dir, pyStem att.original_path.base ++ ".jpeg"⟩, some "image/jpeg"⟩]
        else []) ∧
      (".jpeg" : String).data <:+ (pyStem att.original_path.base ++ ".jpeg").data ∧
      ∀ pre post, resolveAttachments fsE conv dir (pre ++ att :: post) =
        resolveAttachments fsE conv dir pre ++ resolveOne fsE conv dir att ++
          resolveAttachments fsE conv dir post := by
  refine ⟨?_, ?_, ?_⟩
  · unfold resolveOne copy_and_convert_attachment convert_heic_to_jpeg
    rw [hmiss, hex, hheic]
    cases hconv : conv att.original_path ⟨dir, pyStem att.original_path.base ++ ".jpeg"⟩ <;>
      simp [hconv, hheic]
  · exact ⟨(pyStem att.original_path.base).data, (strData_append _ _).symm⟩
  · intro pre post
    simp [resolveAttachments, List.map_append, List.flatten_append]

/-- C8 witness: the theorem evaluated on the attachment `a.heic` with an
always-existing filesystem and an always-succeeding converter. -/
theorem claim_C8_witness :
    strLower (pySuffix ("a.heic" : String)) = ".heic" ∧
      resolveOne (fun _ => true) (fun _ _ => true) ["home", "Downloads"]
          ⟨⟨["att"], "a.heic"⟩, some "image/heic", false⟩ =
        [⟨⟨["home", "Downloads"], "a.jpeg"⟩, some "image/jpeg"⟩] :=
  ⟨by decide, by
    have h := (claim_C8 (fun _ => true) (fun _ _ => true) ["home", "Downloads"]
      ⟨⟨["att"], "a.heic"⟩, some "image/heic", false⟩ (by decide) rfl rfl).1
    exact h.trans (by decide)⟩

/-- C9: every file-write target of a transcript request's attachment
handling lies directly inside the fixed directory `home ++ ["Downloads"]`
(the hardcoded `Path.home() / "Downloads"` of both tools, which expose no
output-directory parameter and write to no other location). -/
theorem claim_C9 (home : List String) (fsE : PPath → Bool)
    (atts : List AttachmentRef) (p : PPath)
    (hp : p ∈ transcriptWriteTargets home fsE atts) :
    p.dirs = home ++ ["Downloads"] := by
  unfold transcriptWriteTargets at hp
  rw [List.mem_flatten] at hp
  obtain ⟨l, hl, hpl⟩ := hp
  rw [List.mem_map] at hl
  obtain ⟨a, _, rfl⟩ := hl
  unfold attachmentWriteTargets at hpl
  split at hpl
  · simp at hpl
  · split at hpl
    · simp at hpl
    · split at hpl
      · simp at hpl
        subst hpl
        rfl
      · simp at hpl
        subst hpl
        rfl

/-- C9 witness: the theorem evaluated on one ordinary attachment copied
for a home directory `["h"]`. -/
theorem claim_C9_witness :
    (⟨["h", "Downloads"], "a.txt"⟩ : PPath) ∈
        transcriptWriteTargets ["h"] (fun _ => true)
          [⟨⟨["src"], "a.txt"⟩, none, false⟩] ∧
      (⟨["h", "Downloads"], "a.txt"⟩ : PPath).dirs = ["h"] ++ ["Downloads"] :=
  ⟨by decide,
    claim_C9 ["h"] (fun _ => true) [⟨⟨["src"], "a.txt"⟩, none, false⟩] _ (by decide)⟩

/-- C10 counterexample: when the external parser rejects the input
outright (here with the library's actual message for an unparseable
string), `get_chat_transcript` raises `ValueError` whose message carries
only the parser's description — it does not name the offending number
("zz" does not occur in the message). -/
theorem claim_C10_counterexample :
    transcript_validate
        (.parseError "(1) The string supplied did not seem to be a phone number.")
        "zz" =
      .error "Invalid phone number format: (1) The string supplied did not seem to be a phone number." ∧
      hasSub
        ("Invalid phone number format: (1) The string supplied did not seem to be a phone number." : String).data
        ("zz" : String).data = false := by
  constructor
  · rfl
  · decide

/-- C10 (amended): `get_chat_transcript` raises `ValueError` in both
failure cases, and its message names the offending number when the number
parses but is invalid, while for unparseable input the message carries
the parser's error description instead; `get_chat_transcript_beta` never
raises for either case — it returns a result object with `messages = []`,
`total_count = 0` and an `error` field describing the failure. -/
theorem claim_C10 (phone e164 e : String) :
    transcript_validate (.parsed false e164) phone =
        .error ("Invalid phone number: " ++ phone) ∧
      hasSub ("Invalid phone number: " ++ phone).data phone.data = true ∧
      transcript_validate (.parseError e) phone =
        .error ("Invalid phone number format: " ++ e) ∧
      beta_validate (.parsed false e164) phone =
        .inl ⟨[], 0, some ("Invalid phone number: " ++ phone)⟩ ∧
      beta_validate (.parseError e) phone =
        .inl ⟨[], 0, some ("Invalid phone number format: " ++ e)⟩ := by
  refine ⟨rfl, ?_, rfl, rfl, rfl⟩
  rw [strData_append]
  exact hasSub_append_left _ _ _ (hasSub_self _)
